import Mathlib

/-!
Verification of the namespace-operation layer of fs/f2fs/namei.c.

The directory state is embedded shallowly: the Entry Index is an association
list from (directory inode, name) to child inode, link counts are an
association list from inode to count, and the Orphan Registry is a reserved
slot counter plus a list of registered inode ids.  Byte strings are lists of
naturals.  Fallible external collaborators (entry insertion, inode-metadata
retarget, whiteout creation) are driven by explicit boolean schedules so that
every failure path of the C control flow is reachable in the model.
-/

namespace F2FS

/-- Error codes used by the namespace operations (negated errno values). -/
inductive Err where
  | enoent
  | enospc
  | enotempty
  | eio
  | eperm
  | enametoolong
  | emlink
  | enomem
  | einval
deriving Repr, DecidableEq

/-! ## Name codec (case-insensitive comparison), from namei.c lines 27-70 -/

/-- Kernel `tolower` from include/linux/ctype.h: ASCII upper-case letters are
mapped to lower case, every other byte is unchanged. -/
def tolower (c : Nat) : Nat :=
  if 65 ≤ c ∧ c ≤ 90 then c + 32 else c

/-- `__f2fs_striptail_len` (namei.c:27): starting from `len`, decrement while
the preceding byte is `'.'` (46). -/
def striptail_len (name : List Nat) : Nat → Nat
  | 0 => 0
  | n + 1 => if name.getD n 0 = 46 then striptail_len name n else n + 1

/-- `f2fs_striptail_len` (namei.c:34): strip the full string. -/
def f2fs_striptail_len (name : List Nat) : Nat :=
  striptail_len name name.length

/-- Kernel `strncasecmp` from lib/string.c: compare at most `n` bytes, stop at
a NUL byte in either string, fold case only when the raw bytes differ. -/
def strncasecmp : List Nat → List Nat → Nat → Int
  | _, _, 0 => 0
  | s1, s2, n + 1 =>
    let c1 := s1.headD 0
    let c2 := s2.headD 0
    if c1 = 0 ∨ c2 = 0 then (c1 : Int) - (c2 : Int)
    else if c1 = c2 then strncasecmp s1.tail s2.tail n
    else if tolower c1 = tolower c2 then strncasecmp s1.tail s2.tail n
    else (tolower c1 : Int) - (tolower c2 : Int)

/-- `f2fs_d_compare` (namei.c:56): `name` is the stored qstr, `str`/`len` the
candidate; returns 0 when the names are judged equal, 1 otherwise. -/
def f2fs_d_compare (name : List Nat) (str : List Nat) (len : Nat) : Nat :=
  let alen := f2fs_striptail_len name
  let blen := striptail_len str len
  if alen = blen ∧ strncasecmp name str alen = 0 then 0 else 1

/-- Specification-side stripping: remove all trailing `'.'` bytes. -/
def stripDots (name : List Nat) : List Nat :=
  (name.reverse.dropWhile (fun c => c = 46)).reverse

/-! ## Filesystem state and the spec-modelled external collaborators -/

/-- The visible filesystem state threaded through every namespace operation. -/
@[ext]
structure FS where
  /-- Entry Index content: ((directory inode, name), child inode). -/
  entries : List ((Nat × List Nat) × Nat)
  /-- link counts per inode id -/
  nlink : List (Nat × Nat)
  /-- inode ids whose mode is a directory -/
  dirs : List Nat
  /-- inode ids carrying the inline-dots flag -/
  inlineDots : List Nat
  /-- Orphan Registry: number of reserved slots currently held -/
  orphanUsed : Nat
  /-- Orphan Registry: capacity of reservable slots -/
  orphanCap : Nat
  /-- Orphan Registry: inode ids registered as pending reclamation -/
  orphans : List Nat
  /-- inodes marked dirty -/
  dirty : List Nat
  /-- live inode ids -/
  inodes : List Nat
  /-- stored symlink page content per inode id -/
  stored : List (Nat × List Nat)
deriving Repr, DecidableEq

/-- Modelled from the spec: Entry Index `find(dir, name) -> entry|absent`
(`f2fs_find_entry`, fs/f2fs/dir.c, not under src/). -/
def findEntry (st : FS) (dir : Nat) (name : List Nat) : Option Nat :=
  (st.entries.find? (fun e => e.1 = (dir, name))).map (fun e => e.2)

/-- Number of Entry Index entries carrying a given (directory, name) key. -/
def countEntry (st : FS) (dir : Nat) (name : List Nat) : Nat :=
  st.entries.countP (fun e => e.1 = (dir, name))

/-- Modelled from the spec: Entry Index `insert(dir, name, inode)`
(`f2fs_add_link`, fs/f2fs/dir.c, not under src/), entry part only. -/
def addEntry (st : FS) (dir : Nat) (name : List Nat) (ino : Nat) : FS :=
  { st with entries := ((dir, name), ino) :: st.entries }

/-- Modelled from the spec: Entry Index `retarget(entry, new_inode)`
(`f2fs_set_link`, fs/f2fs/dir.c, not under src/). -/
def setEntry (st : FS) (dir : Nat) (name : List Nat) (ino : Nat) : FS :=
  { st with entries := st.entries.map (fun e => if e.1 = (dir, name) then (e.1, ino) else e) }

/-- Modelled from the spec: Entry Index `remove(entry)` (`f2fs_delete_entry`,
fs/f2fs/dir.c, not under src/); link-count release is left to the inode's own
finalization, per the spec's removal contract. -/
def f2fs_delete_entry (st : FS) (dir : Nat) (name : List Nat) : FS :=
  { st with entries := st.entries.eraseP (fun e => e.1 = (dir, name)) }

/-- Current link count of an inode (0 when untracked). -/
def getNlink (st : FS) (ino : Nat) : Nat :=
  ((st.nlink.find? (fun p => p.1 = ino)).map (fun p => p.2)).getD 0

/-- `drop_nlink`: decrement the link count of one inode. -/
def dropNlink (st : FS) (ino : Nat) : FS :=
  { st with nlink := st.nlink.map (fun p => if p.1 = ino then (p.1, p.2 - 1) else p) }

/-- `inc_nlink`: increment the link count of one inode. -/
def incNlink (st : FS) (ino : Nat) : FS :=
  { st with nlink := st.nlink.map (fun p => if p.1 = ino then (p.1, p.2 + 1) else p) }

/-- `mark_inode_dirty`, as insertion into a set of dirty inodes. -/
def setDirty (st : FS) (ino : Nat) : FS :=
  if ino ∈ st.dirty then st else { st with dirty := ino :: st.dirty }

/-- Whether an inode is a directory (`S_ISDIR`). -/
def isDir (st : FS) (ino : Nat) : Bool :=
  st.dirs.contains ino

/-- Clear the inline-dots flag of one inode. -/
def clearInlineDots (st : FS) (ino : Nat) : FS :=
  { st with inlineDots := st.inlineDots.filter (fun i => i ≠ ino) }

/-- Modelled from the spec: Orphan Registry `reserve() -> ok|exhausted`
(`acquire_orphan_inode`, fs/f2fs/checkpoint.c, not under src/). -/
def acquire_orphan_inode (st : FS) : Except Err FS :=
  if st.orphanUsed < st.orphanCap then .ok { st with orphanUsed := st.orphanUsed + 1 }
  else .error .enospc

/-- Modelled from the spec: Orphan Registry `release()`
(`release_orphan_inode`, fs/f2fs/checkpoint.c, not under src/). -/
def release_orphan_inode (st : FS) : FS :=
  { st with orphanUsed := st.orphanUsed - 1 }

/-- Modelled from the spec: Orphan Registry `add(id)` (`add_orphan_inode`,
fs/f2fs/checkpoint.c, not under src/); the reserved slot stays consumed. -/
def add_orphan_inode (st : FS) (ino : Nat) : FS :=
  { st with orphans := ino :: st.orphans }

/-- Modelled from the spec: `f2fs_empty_dir` (fs/f2fs/dir.c, not under src/) —
a directory is empty when it contains only the two dot entries. -/
def f2fs_empty_dir (st : FS) (ino : Nat) : Bool :=
  st.entries.all (fun e => e.1.1 ≠ ino ∨ e.1.2 = [46] ∨ e.1.2 = [46, 46])

/-- The name `"."`. -/
def dotName : List Nat := [46]

/-- The name `".."`. -/
def dotdotName : List Nat := [46, 46]

/-- `F2FS_NAME_LEN` from fs/f2fs/f2fs.h (not under src/). -/
def F2FS_NAME_LEN : Nat := 255

/-- `F2FS_LINK_MAX` from fs/f2fs/f2fs.h (not under src/). -/
def F2FS_LINK_MAX : Nat := 32000

/-! ## Removal operations (namei.c lines 367-401, 553-559) -/

/-- Shallow embedding of `f2fs_unlink` (namei.c:367): locate the entry, fail
with not-found if absent; reserve an orphan slot, aborting on reservation
failure before any entry mutation; then remove the entry and mark the inode
dirty (link-count release is external finalization). -/
def f2fs_unlink (st : FS) (dir : Nat) (name : List Nat) : FS × Except Err Unit :=
  match findEntry st dir name with
  | none => (st, .error .enoent)
  | some child =>
    match acquire_orphan_inode st with
    | .error e => (st, .error e)
    | .ok st1 =>
      let st2 := f2fs_delete_entry st1 dir name
      (setDirty st2 child, .ok ())

/-- Shallow embedding of `f2fs_rmdir` (namei.c:553): delegate to unlink when
the directory is empty, otherwise fail with not-empty. -/
def f2fs_rmdir (st : FS) (dir : Nat) (name : List Nat) (child : Nat) :
    FS × Except Err Unit :=
  if f2fs_empty_dir st child then f2fs_unlink st dir name
  else (st, .error .enotempty)

/-! ## Dot-entry recovery (namei.c lines 279-315) -/

/-- Shallow embedding of `__recover_dot_dentries` (namei.c:279).  `ok1`/`ok2`
schedule the success of the two potential `__f2fs_add_link` calls. -/
def __recover_dot_dentries (st : FS) (dir pino : Nat) (ok1 ok2 : Bool) :
    FS × Except Err Unit :=
  let r1 : FS × Except Err Unit :=
    match findEntry st dir dotName with
    | some _ => (st, .ok ())
    | none => if ok1 then (addEntry st dir dotName dir, .ok ()) else (st, .error .enospc)
  match r1 with
  | (st1, .error e) => (st1, .error e)
  | (st1, .ok ()) =>
    let r2 : FS × Except Err Unit :=
      match findEntry st1 dir dotdotName with
      | some _ => (st1, .ok ())
      | none => if ok2 then (addEntry st1 dir dotdotName pino, .ok ()) else (st1, .error .enospc)
    match r2 with
    | (st2, .error e) => (st2, .error e)
    | (st2, .ok ()) => (setDirty (clearInlineDots st2 dir) dir, .ok ())

/-! ## Lookup (namei.c lines 317-365) -/

/-- Shallow embedding of `f2fs_lookup` (namei.c:317).  The boolean component
of the result records whether `f2fs_find_entry` was invoked on the directory;
`ok1`/`ok2` schedule dot-entry recovery insertions. -/
def f2fs_lookup (st : FS) (dir : Nat) (name : List Nat) (ok1 ok2 : Bool) :
    (FS × Bool) × Except Err (Option Nat) :=
  if name.length > F2FS_NAME_LEN then ((st, false), .error .enametoolong)
  else
    match findEntry st dir name with
    | none => ((st, true), .ok none)
    | some ino =>
      if ino ∈ st.inlineDots then
        match __recover_dot_dentries st ino dir ok1 ok2 with
        | (st1, .error e) => ((st1, true), .error e)
        | (st1, .ok ()) => ((st1, true), .ok (some ino))
      else ((st, true), .ok (some ino))

/-! ## Plain rename (namei.c lines 671-829) -/

/-- Success/failure schedule for the fallible external calls of a rename. -/
structure RenSched where
  /-- `f2fs_create_whiteout` internals succeed -/
  whiteoutOk : Bool
  /-- `update_dent_inode` (retarget of name metadata) succeeds -/
  updateDentOk : Bool
  /-- `f2fs_add_link` of the new destination entry succeeds -/
  addLinkNewOk : Bool
  /-- `f2fs_add_link` of the whiteout into the vacated source name succeeds -/
  addLinkWhiteOk : Bool
deriving Repr, DecidableEq

/-- Modelled from the spec: `f2fs_create_whiteout` via `__f2fs_tmpfile`
(namei.c:598,666): bootstrap a character-special inode with link count one,
reserve an orphan slot, register the inode on the Orphan Registry, then
decrement its link count to zero. -/
def f2fs_create_whiteout (st : FS) (whIno : Nat) (ok : Bool) : FS × Except Err Unit :=
  if !ok then (st, .error .enospc)
  else
    match acquire_orphan_inode st with
    | .error e => (st, .error e)
    | .ok st1 =>
      let st2 := { st1 with nlink := (whIno, 1) :: st1.nlink, inodes := whIno :: st1.inodes }
      let st3 := add_orphan_inode st2 whIno
      (dropNlink st3 whIno, .ok ())

/-- Tail of `f2fs_rename` after the destination has been committed
(namei.c lines 769-808): mark the moved inode dirty, delete the original
source entry, link the whiteout into the vacated name (failure jumps to the
error exit without undoing anything), then repoint `..` and drop the old
parent's link count when a directory moved across directories. -/
def f2fs_rename_tail (st : FS) (old_dir : Nat) (old_name : List Nat) (old_ino : Nat)
    (new_dir : Nat) (oldIsDir whiteout : Bool) (whIno : Nat) (sched : RenSched) :
    FS × Except Err Unit :=
  let st1 := setDirty st old_ino
  let st2 := f2fs_delete_entry st1 old_dir old_name
  let r : FS × Except Err Unit :=
    if whiteout then
      if sched.addLinkWhiteOk then
        (incNlink (addEntry st2 old_dir old_name whIno) whIno, .ok ())
      else (st2, .error .enospc)
    else (st2, .ok ())
  match r with
  | (stX, .error e) => (stX, .error e)
  | (stX, .ok ()) =>
    if oldIsDir then
      let stY := if old_dir ≠ new_dir ∧ !whiteout then setEntry stX old_ino dotdotName new_dir
                 else stX
      (setDirty (dropNlink stY old_dir) old_dir, .ok ())
    else (stX, .ok ())

/-- Shallow embedding of `f2fs_rename` (namei.c:671).  `old_ino` is the source
dentry's inode, `new_inode` the destination dentry's inode if any, `whIno` the
inode id the whiteout bootstrap would allocate, and `encBlock` the value of the
encryption-policy guard `(old_dir != new_dir) && f2fs_encrypted_inode(new_dir)
&& !consistent` at entry. -/
def f2fs_rename (st : FS) (old_dir : Nat) (old_name : List Nat) (old_ino : Nat)
    (new_dir : Nat) (new_name : List Nat) (new_inode : Option Nat)
    (whiteout : Bool) (whIno : Nat) (encBlock : Bool) (sched : RenSched) :
    FS × Except Err Unit :=
  if encBlock then (st, .error .eperm)
  else match findEntry st old_dir old_name with
  | none => (st, .error .enoent)
  | some _ =>
    let oldIsDir := isDir st old_ino
    if oldIsDir ∧ (findEntry st old_ino dotdotName).isNone then (st, .error .eio)
    else
      let w : FS × Except Err Unit :=
        if whiteout then f2fs_create_whiteout st whIno sched.whiteoutOk else (st, .ok ())
      match w with
      | (_, .error e) => (st, .error e)
      | (stW, .ok ()) =>
        match new_inode with
        | some tgt =>
          if oldIsDir ∧ !f2fs_empty_dir stW tgt then (stW, .error .enotempty)
          else match findEntry stW new_dir new_name with
          | none => (stW, .error .enoent)
          | some _ =>
            match acquire_orphan_inode stW with
            | .error e => (stW, .error e)
            | .ok stA =>
              if !sched.updateDentOk then
                -- namei.c:730: the return value of update_dent_inode is not
                -- assigned to err, so this exit path returns 0
                (release_orphan_inode stA, .ok ())
              else
                let stB := setEntry stA new_dir new_name old_ino
                let stC := if oldIsDir then dropNlink stB tgt else stB
                let stD := setDirty (dropNlink stC tgt) tgt
                let stE := if getNlink stD tgt = 0 then add_orphan_inode stD tgt
                           else release_orphan_inode stD
                f2fs_rename_tail stE old_dir old_name old_ino new_dir
                  oldIsDir whiteout whIno sched
        | none =>
          if !sched.addLinkNewOk then (stW, .error .enospc)
          else
            let stB := addEntry stW new_dir new_name old_ino
            let stC := if oldIsDir then setDirty (incNlink stB new_dir) new_dir else stB
            f2fs_rename_tail stC old_dir old_name old_ino new_dir
              oldIsDir whiteout whIno sched

/-! ## Cross rename (namei.c lines 831-991) -/

/-- Shallow embedding of `f2fs_cross_rename` (namei.c:831).  `ud1`/`ud2`
schedule the two `update_dent_inode` calls; `encBlock` is the value of the
encryption-policy guard at entry. -/
def f2fs_cross_rename (st : FS) (old_dir : Nat) (old_name : List Nat) (old_ino : Nat)
    (new_dir : Nat) (new_name : List Nat) (new_ino : Nat)
    (encBlock : Bool) (ud1 ud2 : Bool) : FS × Except Err Unit :=
  if encBlock then (st, .error .eperm)
  else match findEntry st old_dir old_name with
  | none => (st, .error .enoent)
  | some _ =>
  match findEntry st new_dir new_name with
  | none => (st, .error .enoent)
  | some _ =>
    let diff : Bool := old_dir ≠ new_dir
    let oldHas : Bool := diff && isDir st old_ino
    let newHas : Bool := diff && isDir st new_ino
    if oldHas ∧ (findEntry st old_ino dotdotName).isNone then (st, .error .eio)
    else if newHas ∧ (findEntry st new_ino dotdotName).isNone then (st, .error .eio)
    else
      let chk : Bool := (!oldHas || !newHas) && (oldHas != newHas)
      let old_nlink : Int := if chk then (if oldHas then -1 else 1) else 0
      let new_nlink : Int := -old_nlink
      -- namei.c:891: the pre-check reads the moved inodes' own link counts
      if chk ∧ ((old_nlink > 0 ∧ getNlink st old_ino ≥ F2FS_LINK_MAX) ∨
                (new_nlink > 0 ∧ getNlink st new_ino ≥ F2FS_LINK_MAX)) then
        (st, .error .emlink)
      else if !ud1 then (st, .error .enomem)
      else if !ud2 then (st, .error .enomem)
      else
        let st1 := if oldHas then setEntry st old_ino dotdotName new_dir else st
        let st2 := if newHas then setEntry st1 new_ino dotdotName old_dir else st1
        let st3 := setEntry st2 old_dir old_name new_ino
        let st4 := setDirty st3 old_ino
        let st5 := if old_nlink < 0 then setDirty (dropNlink st4 old_dir) old_dir
                   else if old_nlink > 0 then setDirty (incNlink st4 old_dir) old_dir
                   else st4
        let st6 := setEntry st5 new_dir new_name old_ino
        let st7 := setDirty st6 new_ino
        let st8 := if new_nlink < 0 then setDirty (dropNlink st7 new_dir) new_dir
                   else if new_nlink > 0 then setDirty (incNlink st7 new_dir) new_dir
                   else st7
        (st8, .ok ())

/-! ## Symlink creation (namei.c lines 418-513) and the encrypted container -/

/-- `encrypted_symlink_data_len(l)` from fs/f2fs/f2fs.h (not under src/):
`l + sizeof(struct f2fs_encrypted_symlink_data) - 1`, the container holding a
16-bit length field plus `l` ciphertext bytes. -/
def encrypted_symlink_data_len (l : Nat) : Nat := l + 2

/-- Success/failure schedule for the fallible external calls of symlink
creation. -/
structure SymSched where
  /-- `f2fs_new_inode` succeeds -/
  newInodeOk : Bool
  /-- `f2fs_add_link` succeeds -/
  addLinkOk : Bool
  /-- `f2fs_get_encryption_info` succeeds -/
  getEncInfoOk : Bool
  /-- `f2fs_fname_crypto_alloc_buffer` succeeds -/
  allocBufOk : Bool
  /-- `f2fs_fname_usr_to_disk` (the cipher) succeeds -/
  usrToDiskOk : Bool
  /-- `page_symlink` succeeds -/
  pageSymlinkOk : Bool
deriving Repr, DecidableEq

/-- Shallow embedding of `f2fs_symlink` (namei.c:418).  `ino` is the inode id
the bootstrap would allocate, `cipher` the ciphertext the external cipher
produces for `symname` (its length plays the role of `disk_link.len`). -/
def f2fs_symlink (st : FS) (dir : Nat) (name : List Nat) (symname : List Nat)
    (blocksize : Nat) (ino : Nat) (dirEncrypted : Bool) (cipher : List Nat)
    (sch : SymSched) : FS × Except Err Unit :=
  if symname.length > blocksize then (st, .error .enametoolong)
  else if !sch.newInodeOk then (st, .error .enospc)
  else
    let st1 := { st with inodes := ino :: st.inodes, nlink := (ino, 1) :: st.nlink }
    if !sch.addLinkOk then (st, .error .enospc)
    else
      let st2 := addEntry st1 dir name ino
      if dirEncrypted then
        if !sch.getEncInfoOk then (st2, .error .enomem)
        else if !sch.allocBufOk then (st2, .error .enomem)
        else if !sch.usrToDiskOk then (st2, .error .enomem)
        else
          let p_len := encrypted_symlink_data_len cipher.length + 1
          if p_len > blocksize then (st2, .error .enametoolong)
          else if !sch.pageSymlinkOk then (st2, .error .enomem)
          else
            let container := [cipher.length % 256, cipher.length / 256] ++ cipher ++ [0]
            ({ st2 with stored := (ino, container) :: st2.stored }, .ok ())
      else
        if !sch.pageSymlinkOk then (st2, .error .enomem)
        else ({ st2 with stored := (ino, symname ++ [0]) :: st2.stored }, .ok ())

/-! ## Encrypted symlink decode (namei.c lines 1012-1082) -/

/-- Observable actions of the encrypted-symlink decode, in program order:
`copy n` is the allocation and copy of `n` bytes of ciphertext out of the
container page, `validate` the comparison of the stored length against the
block size, `cipher` the invocation of the decryption primitive. -/
inductive LinkEv where
  | copy (n : Nat)
  | validate
  | cipher
deriving Repr, DecidableEq

/-- The 16-bit little-endian length field stored at the head of a container
page. -/
def sdLen (page : List Nat) : Nat :=
  page.headD 0 + 256 * page.tail.headD 0

/-- Shallow embedding of `f2fs_encrypted_follow_link` (namei.c:1012) over the
stored container page, returning the ordered list of observable actions
together with the result; `decrypt` is the external cipher
(`f2fs_fname_disk_to_usr`). -/
def f2fs_encrypted_follow_link (page : List Nat) (blocksize : Nat)
    (decrypt : List Nat → Except Err (List Nat)) :
    List LinkEv × Except Err (List Nat) :=
  let len := sdLen page
  let cname := (page.drop 2).take len
  if cname.headD 0 = 0 ∧ len = 0 then ([.copy len], .error .enoent)
  else if encrypted_symlink_data_len len > blocksize then
    ([.copy len, .validate], .error .eio)
  else
    match decrypt cname with
    | .error e => ([.copy len, .validate, .cipher], .error e)
    | .ok p => ([.copy len, .validate, .cipher], .ok p)

/-! ## Concrete states used to settle claims on explicit inputs -/

/-- A state with directory 1 containing entry `"a"` ↦ inode 10 (a regular
file): input for the whiteout-failure run of a plain rename. -/
def renameWhiteoutFailState : FS :=
  ⟨[((1, [97]), 10)], [(1, 2), (10, 1)], [1], [], 0, 5, [], [], [1, 10], []⟩

/-- A state with directory 1 containing `"a"` ↦ inode 10 and `"b"` ↦ inode 20
(both regular files): input for the failed-retarget run of a plain rename. -/
def renameRetargetFailState : FS :=
  ⟨[((1, [97]), 10), ((1, [98]), 20)], [(1, 2), (10, 1), (20, 1)], [1], [],
    0, 5, [], [], [1, 10, 20], []⟩

/-- A state for a cross rename between directories 1 and 2: inode 10 is a
regular file named `"a"` in directory 1, inode 20 a directory named `"b"` in
directory 2, and directory 1 (the file side's parent, which the exchange will
gain a subdirectory reference on) already sits at the link-count ceiling. -/
def crossRenameCeilingState : FS :=
  ⟨[((1, [97]), 10), ((2, [98]), 20), ((20, [46, 46]), 2)],
    [(1, 32000), (2, 3), (10, 1), (20, 2)], [1, 2, 20], [],
    0, 5, [], [], [1, 2, 10, 20], []⟩

end F2FS

namespace F2FS

/-! ## Theorems -/

/-- C10: a lookup whose name exceeds `F2FS_NAME_LEN` fails with name-too-long
before the directory is searched: `f2fs_find_entry` is never invoked (the
boolean flag stays `false`) and the state is returned unchanged. -/
theorem c10_lookup_nametoolong (st : FS) (dir : Nat) (name : List Nat)
    (ok1 ok2 : Bool) (h : name.length > F2FS_NAME_LEN) :
    f2fs_lookup st dir name ok1 ok2 = ((st, false), .error .enametoolong) := by
  simp [f2fs_lookup, h]

set_option maxRecDepth 8192 in
/-- Witness for C10 at a 256-byte name. -/
theorem c10_lookup_nametoolong_witness :
    f2fs_lookup ⟨[], [], [], [], 0, 0, [], [], [], []⟩ 1 (List.replicate 256 97) true true
      = ((⟨[], [], [], [], 0, 0, [], [], [], []⟩, false), .error .enametoolong) :=
  c10_lookup_nametoolong _ 1 _ true true (by simp [F2FS_NAME_LEN])

/-- C5: `f2fs_rmdir` on a directory holding any entry other than the two dot
entries fails with not-empty and leaves the state unchanged; on an empty
directory it delegates to `f2fs_unlink`; and non-emptiness of the model
predicate coincides with the existence of a non-dot entry. -/
theorem c5_rmdir_spec (st : FS) (dir child : Nat) (name : List Nat) :
    (f2fs_empty_dir st child = false →
      f2fs_rmdir st dir name child = (st, .error .enotempty)) ∧
    (f2fs_empty_dir st child = true →
      f2fs_rmdir st dir name child = f2fs_unlink st dir name) ∧
    (f2fs_empty_dir st child = false ↔
      ∃ e ∈ st.entries, e.1.1 = child ∧ e.1.2 ≠ dotName ∧ e.1.2 ≠ dotdotName) := by
  refine ⟨fun h => by simp [f2fs_rmdir, h], fun h => by simp [f2fs_rmdir, h], ?_⟩
  rw [← Bool.not_eq_true, f2fs_empty_dir]
  simp only [List.all_eq_true, decide_eq_true_eq, dotName, dotdotName]
  push_neg
  constructor
  · rintro ⟨e, he, hne⟩
    exact ⟨e, he, by tauto⟩
  · rintro ⟨e, he, h1, h2, h3⟩
    exact ⟨e, he, by tauto⟩

/-- Witness for C5: directory 5 contains a non-dot entry and removal fails
with not-empty leaving the state intact; directory 6 is empty and removal
delegates to unlink. -/
theorem c5_rmdir_spec_witness :
    (f2fs_rmdir ⟨[((5, [99]), 7), ((1, [97]), 5), ((1, [98]), 6)], [], [1, 5, 6], [],
        0, 1, [], [], [], []⟩ 1 [97] 5
      = (⟨[((5, [99]), 7), ((1, [97]), 5), ((1, [98]), 6)], [], [1, 5, 6], [],
        0, 1, [], [], [], []⟩, .error .enotempty)) ∧
    (f2fs_rmdir ⟨[((5, [99]), 7), ((1, [97]), 5), ((1, [98]), 6)], [], [1, 5, 6], [],
        0, 1, [], [], [], []⟩ 1 [98] 6
      = f2fs_unlink ⟨[((5, [99]), 7), ((1, [97]), 5), ((1, [98]), 6)], [], [1, 5, 6], [],
        0, 1, [], [], [], []⟩ 1 [98]) :=
  ⟨(c5_rmdir_spec _ 1 5 [97]).1 (by decide), (c5_rmdir_spec _ 1 6 [98]).2.1 (by decide)⟩

/-- C4: `f2fs_unlink` fails with not-found on an absent entry, changing
nothing; when the entry exists it reserves an Orphan Registry slot before any
entry mutation, so a failed reservation aborts with the reservation error and
the state untouched, while a successful run holds the reserved slot, removes
exactly the located entry, and leaves every link count unchanged (the
decrement is deferred to inode finalization). -/
theorem c4_unlink_spec (st : FS) (dir : Nat) (name : List Nat) :
    (findEntry st dir name = none →
      f2fs_unlink st dir name = (st, .error .enoent)) ∧
    (findEntry st dir name ≠ none → st.orphanCap ≤ st.orphanUsed →
      f2fs_unlink st dir name = (st, .error .enospc)) ∧
    (findEntry st dir name ≠ none → st.orphanUsed < st.orphanCap →
      (f2fs_unlink st dir name).2 = .ok () ∧
      (f2fs_unlink st dir name).1.orphanUsed = st.orphanUsed + 1 ∧
      (f2fs_unlink st dir name).1.entries
        = st.entries.eraseP (fun e => e.1 = (dir, name)) ∧
      (f2fs_unlink st dir name).1.nlink = st.nlink) := by
  refine ⟨fun h => by simp [f2fs_unlink, h], ?_, ?_⟩
  · intro h hcap
    match hf : findEntry st dir name with
    | none => exact absurd hf h
    | some child =>
      simp [f2fs_unlink, hf, acquire_orphan_inode, Nat.not_lt.mpr hcap]
  · intro h hcap
    match hf : findEntry st dir name with
    | none => exact absurd hf h
    | some child =>
      simp only [f2fs_unlink, hf, acquire_orphan_inode, hcap, if_pos]
      unfold setDirty f2fs_delete_entry
      split <;> simp

/-- Witness for C4: not-found on an absent name, reservation failure with a
full registry, and a successful removal. -/
theorem c4_unlink_spec_witness :
    (f2fs_unlink ⟨[((1, [97]), 10)], [(10, 1)], [], [], 0, 1, [], [], [10], []⟩ 1 [98]
      = (⟨[((1, [97]), 10)], [(10, 1)], [], [], 0, 1, [], [], [10], []⟩, .error .enoent)) ∧
    (f2fs_unlink ⟨[((1, [97]), 10)], [(10, 1)], [], [], 0, 0, [], [], [10], []⟩ 1 [97]
      = (⟨[((1, [97]), 10)], [(10, 1)], [], [], 0, 0, [], [], [10], []⟩, .error .enospc)) ∧
    ((f2fs_unlink ⟨[((1, [97]), 10)], [(10, 1)], [], [], 0, 1, [], [], [10], []⟩ 1 [97]).2
        = .ok () ∧
      (f2fs_unlink ⟨[((1, [97]), 10)], [(10, 1)], [], [], 0, 1, [], [], [10], []⟩ 1 [97]).1.orphanUsed
        = 0 + 1 ∧
      (f2fs_unlink ⟨[((1, [97]), 10)], [(10, 1)], [], [], 0, 1, [], [], [10], []⟩ 1 [97]).1.entries
        = [((1, [97]), 10)].eraseP (fun e => e.1 = (1, [97])) ∧
      (f2fs_unlink ⟨[((1, [97]), 10)], [(10, 1)], [], [], 0, 1, [], [], [10], []⟩ 1 [97]).1.nlink
        = [(10, 1)]) :=
  ⟨(c4_unlink_spec _ 1 [98]).1 (by decide),
   (c4_unlink_spec _ 1 [97]).2.1 (by decide) (by decide),
   (c4_unlink_spec _ 1 [97]).2.2 (by decide) (by decide)⟩

/-! ### State-manipulation helper lemmas -/

theorem setDirty_entries (st : FS) (i : Nat) : (setDirty st i).entries = st.entries := by
  unfold setDirty; split <;> rfl

theorem setDirty_inlineDots (st : FS) (i : Nat) :
    (setDirty st i).inlineDots = st.inlineDots := by
  unfold setDirty; split <;> rfl

theorem setDirty_nlink (st : FS) (i : Nat) : (setDirty st i).nlink = st.nlink := by
  unfold setDirty; split <;> rfl

theorem setDirty_orphanUsed (st : FS) (i : Nat) :
    (setDirty st i).orphanUsed = st.orphanUsed := by
  unfold setDirty; split <;> rfl

theorem setDirty_orphans (st : FS) (i : Nat) : (setDirty st i).orphans = st.orphans := by
  unfold setDirty; split <;> rfl

theorem mem_setDirty_dirty (st : FS) (i : Nat) : i ∈ (setDirty st i).dirty := by
  unfold setDirty; split
  · assumption
  · exact List.mem_cons_self _ _

theorem setDirty_of_mem (st : FS) (i : Nat) (h : i ∈ st.dirty) : setDirty st i = st := by
  unfold setDirty; exact if_pos h

theorem findEntry_addEntry (st : FS) (d : Nat) (n : List Nat) (i : Nat)
    (d' : Nat) (n' : List Nat) :
    findEntry (addEntry st d n i) d' n'
      = if (d, n) = (d', n') then some i else findEntry st d' n' := by
  by_cases h : (d, n) = (d', n')
  · simp [findEntry, addEntry, List.find?_cons_of_pos, h]
  · simp only [findEntry, addEntry]
    rw [List.find?_cons_of_neg _ (by simp [h])]
    simp [h]

theorem clearInlineDots_entries (st : FS) (i : Nat) :
    (clearInlineDots st i).entries = st.entries := rfl

theorem not_mem_clearInlineDots (st : FS) (i : Nat) :
    i ∉ (clearInlineDots st i).inlineDots := by
  simp [clearInlineDots]

theorem addEntry_inlineDots (st : FS) (d : Nat) (n : List Nat) (i : Nat) :
    (addEntry st d n i).inlineDots = st.inlineDots := rfl

theorem dotKey_ne_dotdotKey (d : Nat) : (d, dotName) ≠ (d, dotdotName) := by
  simp [dotName, dotdotName]

theorem findEntry_eq_of_entries (a b : FS) (d : Nat) (n : List Nat)
    (h : a.entries = b.entries) : findEntry a d n = findEntry b d n := by
  simp [findEntry, h]

/-! ### Dot-entry recovery helper lemmas -/

/-- When both dot entries are already present, recovery performs no insertion:
it only clears the inline-dots flag and marks the directory dirty. -/
theorem recover_of_present (st : FS) (dir pino : Nat) (b1 b2 : Bool)
    (h1 : (findEntry st dir dotName).isSome)
    (h2 : (findEntry st dir dotdotName).isSome) :
    __recover_dot_dentries st dir pino b1 b2
      = (setDirty (clearInlineDots st dir) dir, .ok ()) := by
  obtain ⟨x, hx⟩ := Option.isSome_iff_exists.mp h1
  obtain ⟨y, hy⟩ := Option.isSome_iff_exists.mp h2
  simp [__recover_dot_dentries, hx, hy]

/-- Clearing the flag and marking dirty a second time is the identity. -/
theorem recover_fixed (s : FS) (d : Nat) :
    setDirty (clearInlineDots (setDirty (clearInlineDots s d) d) d) d
      = setDirty (clearInlineDots s d) d := by
  have hfix : clearInlineDots (setDirty (clearInlineDots s d) d) d
      = setDirty (clearInlineDots s d) d := by
    apply FS.ext <;>
      simp [clearInlineDots, setDirty_inlineDots, List.filter_filter, Bool.and_self]
  rw [hfix, setDirty_of_mem _ _ (mem_setDirty_dirty _ _)]

/-- Every successful recovery run ends in a state obtained by clearing the
flag on a state in which both dot entries are present and whose flag set is
the initial one. -/
theorem recover_ok_cases (st : FS) (dir pino : Nat) (b1 b2 : Bool) (st' : FS)
    (h : __recover_dot_dentries st dir pino b1 b2 = (st', .ok ())) :
    ∃ st2 : FS,
      st' = setDirty (clearInlineDots st2 dir) dir ∧
      (findEntry st2 dir dotName).isSome ∧
      (findEntry st2 dir dotdotName).isSome ∧
      st2.inlineDots = st.inlineDots ∧ st2.nlink = st.nlink := by
  rcases hdot : findEntry st dir dotName with _ | x
  · cases b1
    · simp [__recover_dot_dentries, hdot] at h
    · rcases hdd : findEntry (addEntry st dir dotName dir) dir dotdotName with _ | y
      · cases b2
        · simp [__recover_dot_dentries, hdot, hdd] at h
        · simp only [__recover_dot_dentries, hdot, hdd, if_true] at h
          obtain rfl : setDirty (clearInlineDots
              (addEntry (addEntry st dir dotName dir) dir dotdotName pino) dir) dir = st' :=
            congrArg Prod.fst h
          refine ⟨_, rfl, ?_, ?_, rfl, rfl⟩
          · rw [findEntry_addEntry, if_neg (by simp [dotName, dotdotName]),
              findEntry_addEntry, if_pos rfl]
            rfl
          · rw [findEntry_addEntry, if_pos rfl]
            rfl
      · simp only [__recover_dot_dentries, hdot, hdd, if_true] at h
        obtain rfl : setDirty (clearInlineDots (addEntry st dir dotName dir) dir) dir = st' :=
          congrArg Prod.fst h
        refine ⟨_, rfl, ?_, ?_, rfl, rfl⟩
        · simp [findEntry_addEntry]
        · rw [hdd]; rfl
  · rcases hdd : findEntry st dir dotdotName with _ | y
    · cases b2
      · simp [__recover_dot_dentries, hdot, hdd] at h
      · simp only [__recover_dot_dentries, hdot, hdd, if_true] at h
        obtain rfl : setDirty (clearInlineDots (addEntry st dir dotdotName pino) dir) dir = st' :=
          congrArg Prod.fst h
        refine ⟨_, rfl, ?_, ?_, rfl, rfl⟩
        · rw [findEntry_addEntry, if_neg (by simp [dotName, dotdotName]), hdot]
          rfl
        · rw [findEntry_addEntry, if_pos rfl]
          rfl
    · simp only [__recover_dot_dentries, hdot, hdd] at h
      obtain rfl : setDirty (clearInlineDots st dir) dir = st' := congrArg Prod.fst h
      exact ⟨st, rfl, by rw [hdot]; rfl, by rw [hdd]; rfl, rfl, rfl⟩

/-- Every failed recovery run leaves the inline-dots flag set untouched. -/
theorem recover_error_cases (st : FS) (dir pino : Nat) (b1 b2 : Bool) (st' : FS)
    (e : Err) (h : __recover_dot_dentries st dir pino b1 b2 = (st', .error e)) :
    st'.inlineDots = st.inlineDots := by
  rcases hdot : findEntry st dir dotName with _ | x
  · cases b1
    · simp only [__recover_dot_dentries, hdot, if_false] at h
      obtain rfl : st = st' := congrArg Prod.fst h
      rfl
    · rcases hdd : findEntry (addEntry st dir dotName dir) dir dotdotName with _ | y
      · cases b2
        · simp only [__recover_dot_dentries, hdot, hdd, if_true, if_false] at h
          obtain rfl : addEntry st dir dotName dir = st' := congrArg Prod.fst h
          rfl
        · simp [__recover_dot_dentries, hdot, hdd] at h
      · simp [__recover_dot_dentries, hdot, hdd] at h
  · rcases hdd : findEntry st dir dotdotName with _ | y
    · cases b2
      · simp only [__recover_dot_dentries, hdot, hdd, if_false] at h
        obtain rfl : st = st' := congrArg Prod.fst h
        rfl
      · simp [__recover_dot_dentries, hdot, hdd] at h
    · simp [__recover_dot_dentries, hdot, hdd] at h

/-- A run whose second insertion was never exercised coincides with the
all-success run. -/
theorem recover_ok_b2_irrelevant (st : FS) (dir pino : Nat) (s1 : FS)
    (h : __recover_dot_dentries st dir pino true false = (s1, .ok ())) :
    __recover_dot_dentries st dir pino true true = (s1, .ok ()) := by
  rcases hdot : findEntry st dir dotName with _ | x
  · rcases hdd : findEntry (addEntry st dir dotName dir) dir dotdotName with _ | y
    · simp [__recover_dot_dentries, hdot, hdd] at h
    · simp only [__recover_dot_dentries, hdot, hdd, if_true] at h ⊢
      exact h
  · rcases hdd : findEntry st dir dotdotName with _ | y
    · simp [__recover_dot_dentries, hdot, hdd] at h
    · simp only [__recover_dot_dentries, hdot, hdd] at h ⊢
      exact h

/-- Rerunning recovery on a state produced by a successful run returns that
state unchanged with success. -/
theorem recover_rerun (st1 : FS) (dir pino : Nat) (b1 b2 : Bool) (st2 : FS)
    (hs : st1 = setDirty (clearInlineDots st2 dir) dir)
    (hd : (findEntry st2 dir dotName).isSome)
    (hdd : (findEntry st2 dir dotdotName).isSome) :
    __recover_dot_dentries st1 dir pino b1 b2 = (st1, .ok ()) := by
  subst hs
  have he : (setDirty (clearInlineDots st2 dir) dir).entries = st2.entries := by
    rw [setDirty_entries]; rfl
  rw [recover_of_present _ _ pino b1 b2
      (by rw [findEntry_eq_of_entries _ st2 _ _ he]; exact hd)
      (by rw [findEntry_eq_of_entries _ st2 _ _ he]; exact hdd),
    recover_fixed]

/-- C9: dot-entry recovery is idempotent.  A rerun after a completed run
performs no insertion and returns the completed state unchanged; a successful
run ends with both dot entries present and the inline-dots flag cleared; on
any insertion failure the flag is left unchanged (so recovery is retried); and
a partially failed run followed by a successful rerun reaches exactly the
state a fresh successful run reaches. -/
theorem c9_recover_dot_dentries_idempotent (st : FS) (dir pino : Nat) (b1 b2 : Bool) :
    (∀ st1, __recover_dot_dentries st dir pino true true = (st1, .ok ()) →
      __recover_dot_dentries st1 dir pino b1 b2 = (st1, .ok ())) ∧
    ((__recover_dot_dentries st dir pino b1 b2).2 = .ok () →
      (findEntry (__recover_dot_dentries st dir pino b1 b2).1 dir dotName).isSome ∧
      (findEntry (__recover_dot_dentries st dir pino b1 b2).1 dir dotdotName).isSome ∧
      dir ∉ (__recover_dot_dentries st dir pino b1 b2).1.inlineDots) ∧
    (∀ e, (__recover_dot_dentries st dir pino b1 b2).2 = .error e →
      (__recover_dot_dentries st dir pino b1 b2).1.inlineDots = st.inlineDots) ∧
    (__recover_dot_dentries (__recover_dot_dentries st dir pino true false).1 dir pino true true
      = __recover_dot_dentries st dir pino true true) := by
  refine ⟨?_, ?_, ?_, ?_⟩
  · intro st1 h
    obtain ⟨st2, hs, hd, hdd, _, _⟩ := recover_ok_cases st dir pino true true st1 h
    exact recover_rerun st1 dir pino b1 b2 st2 hs hd hdd
  · intro hok
    rcases hres : __recover_dot_dentries st dir pino b1 b2 with ⟨s', r⟩
    rw [hres] at hok
    cases r with
    | error e => simp at hok
    | ok u =>
      cases u
      obtain ⟨st2, hs, hd, hdd, _, _⟩ := recover_ok_cases st dir pino b1 b2 s' hres
      dsimp only
      subst hs
      have he : (setDirty (clearInlineDots st2 dir) dir).entries = st2.entries := by
        rw [setDirty_entries]; rfl
      refine ⟨?_, ?_, ?_⟩
      · rw [findEntry_eq_of_entries _ st2 _ _ he]; exact hd
      · rw [findEntry_eq_of_entries _ st2 _ _ he]; exact hdd
      · rw [setDirty_inlineDots]
        exact not_mem_clearInlineDots _ _
  · intro e he
    rcases hres : __recover_dot_dentries st dir pino b1 b2 with ⟨s', r⟩
    rw [hres] at he
    cases r with
    | ok u => simp at he
    | error e' =>
      exact recover_error_cases st dir pino b1 b2 s' e' hres
  · rcases hres : __recover_dot_dentries st dir pino true false with ⟨s1, r⟩
    cases r with
    | ok u =>
      cases u
      have h' := recover_ok_b2_irrelevant st dir pino s1 hres
      dsimp only
      rw [h']
      obtain ⟨st2, hs, hd, hdd, _, _⟩ := recover_ok_cases st dir pino true true s1 h'
      exact recover_rerun s1 dir pino true true st2 hs hd hdd
    | error e =>
      rcases hdot : findEntry st dir dotName with _ | x
      · rcases hdd : findEntry (addEntry st dir dotName dir) dir dotdotName with _ | y
        · simp only [__recover_dot_dentries, hdot, hdd, if_true, if_false] at hres
          obtain rfl : addEntry st dir dotName dir = s1 := congrArg Prod.fst hres
          have h1 : findEntry (addEntry st dir dotName dir) dir dotName = some dir := by
            rw [findEntry_addEntry, if_pos rfl]
          dsimp only
          simp only [__recover_dot_dentries, h1, hdd, hdot, if_true]
        · simp [__recover_dot_dentries, hdot, hdd] at hres
      · rcases hdd : findEntry st dir dotdotName with _ | y
        · simp only [__recover_dot_dentries, hdot, hdd, if_false] at hres
          obtain rfl : st = s1 := congrArg Prod.fst hres
          rfl
        · simp [__recover_dot_dentries, hdot, hdd] at hres

/-- Witness for C9 at a concrete inline-dots directory (inode 9, parent 1). -/
theorem c9_recover_dot_dentries_idempotent_witness :
    __recover_dot_dentries
        ⟨[((9, [46, 46]), 1), ((9, [46]), 9)], [], [9], [], 0, 0, [], [9], [9], []⟩
        9 1 true true
      = (⟨[((9, [46, 46]), 1), ((9, [46]), 9)], [], [9], [], 0, 0, [], [9], [9], []⟩,
        .ok ()) :=
  (c9_recover_dot_dentries_idempotent ⟨[], [], [9], [9], 0, 0, [], [], [9], []⟩ 9 1
      true true).1
    ⟨[((9, [46, 46]), 1), ((9, [46]), 9)], [], [9], [], 0, 0, [], [9], [9], []⟩
    (by rfl)

/-! ### Counting helper lemmas for entry lists -/

theorem countP_eraseP_of_one {α : Type} (l : List α) (p : α → Bool)
    (h : l.countP p = 1) : (l.eraseP p).countP p = 0 := by
  induction l with
  | nil => simp at h
  | cons a t ih =>
    by_cases hp : p a = true
    · rw [List.eraseP_cons_of_pos hp]
      rw [List.countP_cons_of_pos _ _ hp] at h
      omega
    · rw [List.eraseP_cons_of_neg hp,
        List.countP_cons_of_neg _ _ hp]
      rw [List.countP_cons_of_neg _ _ hp] at h
      exact ih h

theorem countP_eraseP_disjoint {α : Type} (l : List α) (p q : α → Bool)
    (hpq : ∀ x, p x = true → q x = false) :
    (l.eraseP p).countP q = l.countP q := by
  induction l with
  | nil => rfl
  | cons a t ih =>
    by_cases hp : p a = true
    · rw [List.eraseP_cons_of_pos hp]
      rw [List.countP_cons_of_neg _ _ (by simp [hpq a hp])]
    · rw [List.eraseP_cons_of_neg hp]
      by_cases hq : q a = true
      · rw [List.countP_cons_of_pos _ _ hq, List.countP_cons_of_pos _ _ hq, ih]
      · rw [List.countP_cons_of_neg _ _ hq,
          List.countP_cons_of_neg _ _ hq, ih]

theorem countEntry_eq_of_entries (a b : FS) (d : Nat) (n : List Nat)
    (h : a.entries = b.entries) : countEntry a d n = countEntry b d n := by
  simp [countEntry, h]

/-- A successful whiteout bootstrap touches only link counts, live inodes and
the Orphan Registry, never a directory entry. -/
theorem create_whiteout_ok (st : FS) (whIno : Nat)
    (h : st.orphanUsed < st.orphanCap) :
    (f2fs_create_whiteout st whIno true).2 = .ok () ∧
    (f2fs_create_whiteout st whIno true).1.entries = st.entries := by
  simp [f2fs_create_whiteout, acquire_orphan_inode, h, add_orphan_inode, dropNlink]

/-! ### C1: rollback of plain rename -/

/-- C1 counterexample: a whiteout rename of `"a"` (directory 1, inode 10) to
directory 2 in which linking the whiteout into the vacated source name fails.
The operation returns the originating error, yet the source entry has been
deleted and the destination insertion kept: the directory entries are not as
they were before the call, refuting the claimed universal unwind. -/
theorem c1_rename_rollback_counterexample :
    ((f2fs_rename renameWhiteoutFailState 1 [97] 10 2 [98] none true 99 false
        ⟨true, true, true, false⟩).2 = .error .enospc) ∧
    (f2fs_rename renameWhiteoutFailState 1 [97] 10 2 [98] none true 99 false
        ⟨true, true, true, false⟩).1.entries ≠ renameWhiteoutFailState.entries ∧
    findEntry (f2fs_rename renameWhiteoutFailState 1 [97] 10 2 [98] none true 99 false
        ⟨true, true, true, false⟩).1 1 [97] = none ∧
    findEntry (f2fs_rename renameWhiteoutFailState 1 [97] 10 2 [98] none true 99 false
        ⟨true, true, true, false⟩).1 2 [98] = some 10 :=
  ⟨rfl, by decide, rfl, rfl⟩

/-- C1 amended: failures of the replace path that occur before any entry
mutation do unwind — a failed orphan-slot reservation surfaces its error with
the state untouched, and a failed retarget releases the reserved slot and
leaves the state untouched (though it then returns success, since namei.c:730
never assigns the failure to `err`) — but a failure to link the whiteout into
the vacated source name surfaces the error with the source-entry deletion and
destination insertion left in place. -/
theorem c1_rename_unwind_amended :
    (∀ (st : FS) (od oi nd tgt x y : Nat) (onm nnm : List Nat) (sch : RenSched),
      findEntry st od onm = some x → isDir st oi = false →
      findEntry st nd nnm = some y → st.orphanCap ≤ st.orphanUsed →
      f2fs_rename st od onm oi nd nnm (some tgt) false 0 false sch
        = (st, .error .enospc)) ∧
    (∀ (st : FS) (od oi nd tgt x y : Nat) (onm nnm : List Nat) (sch : RenSched),
      findEntry st od onm = some x → isDir st oi = false →
      findEntry st nd nnm = some y → st.orphanUsed < st.orphanCap →
      sch.updateDentOk = false →
      f2fs_rename st od onm oi nd nnm (some tgt) false 0 false sch
        = (st, .ok ())) ∧
    (∀ (st : FS) (od oi nd whIno x : Nat) (onm nnm : List Nat),
      findEntry st od onm = some x → isDir st oi = false →
      countEntry st od onm = 1 → (od, onm) ≠ (nd, nnm) →
      st.orphanUsed < st.orphanCap →
      (f2fs_rename st od onm oi nd nnm none true whIno false
          ⟨true, true, true, false⟩).2 = .error .enospc ∧
      countEntry (f2fs_rename st od onm oi nd nnm none true whIno false
          ⟨true, true, true, false⟩).1 od onm = 0 ∧
      countEntry (f2fs_rename st od onm oi nd nnm none true whIno false
          ⟨true, true, true, false⟩).1 nd nnm = countEntry st nd nnm + 1) := by
  refine ⟨?_, ?_, ?_⟩
  · intro st od oi nd tgt x y onm nnm sch hfo hdir hfn hcap
    have hlt : ¬ st.orphanUsed < st.orphanCap := Nat.not_lt.mpr hcap
    simp [f2fs_rename, hfo, hdir, hfn, acquire_orphan_inode, hlt]
  · intro st od oi nd tgt x y onm nnm sch hfo hdir hfn hcap hud
    have hrel : release_orphan_inode { st with orphanUsed := st.orphanUsed + 1 } = st := by
      apply FS.ext <;> simp [release_orphan_inode]
    simp [f2fs_rename, hfo, hdir, hfn, acquire_orphan_inode, hcap, hud, hrel]
  · intro st od oi nd whIno x onm nnm hfo hdir hcnt hne hcap
    obtain ⟨hw2, hwent⟩ := create_whiteout_ok st whIno hcap
    rcases hw : f2fs_create_whiteout st whIno true with ⟨stW, rw2⟩
    rw [hw] at hw2 hwent
    dsimp only at hw2 hwent
    subst hw2
    have hrun : f2fs_rename st od onm oi nd nnm none true whIno false
        ⟨true, true, true, false⟩
        = (f2fs_delete_entry (setDirty (addEntry stW nd nnm oi) oi) od onm,
          .error .enospc) := by
      simp [f2fs_rename, hfo, hdir, hw, f2fs_rename_tail]
    rw [hrun]
    have hent : (f2fs_delete_entry (setDirty (addEntry stW nd nnm oi) oi) od onm).entries
        = List.eraseP (fun e => e.1 = (od, onm)) (((nd, nnm), oi) :: st.entries) := by
      show (List.eraseP _ (setDirty (addEntry stW nd nnm oi) oi).entries) = _
      rw [setDirty_entries]
      show List.eraseP _ (((nd, nnm), oi) :: stW.entries) = _
      rw [hwent]
    have hhead : (fun e => decide (e.1 = (od, onm))) (((nd, nnm), oi)) = false := by
      simp [Ne.symm hne]
    have hne' : ¬ (fun e : (Nat × List Nat) × Nat => decide (e.1 = (od, onm)))
        ((nd, nnm), oi) := by
      simp [Ne.symm hne]
    refine ⟨rfl, ?_, ?_⟩
    · show List.countP (fun e => e.1 = (od, onm))
          (f2fs_delete_entry (setDirty (addEntry stW nd nnm oi) oi) od onm).entries = 0
      rw [hent, List.eraseP_cons_of_neg (p := fun e : (Nat × List Nat) × Nat => decide (e.1 = (od, onm))) hne',
        List.countP_cons_of_neg (fun e : (Nat × List Nat) × Nat => decide (e.1 = (od, onm))) _ hne']
      exact countP_eraseP_of_one st.entries _ hcnt
    · show List.countP (fun e => e.1 = (nd, nnm))
          (f2fs_delete_entry (setDirty (addEntry stW nd nnm oi) oi) od onm).entries
        = countEntry st nd nnm + 1
      rw [hent, List.eraseP_cons_of_neg (p := fun e : (Nat × List Nat) × Nat => decide (e.1 = (od, onm))) hne',
        List.countP_cons_of_pos (fun e : (Nat × List Nat) × Nat => decide (e.1 = (nd, nnm))) _ (by simp),
        countP_eraseP_disjoint st.entries _ _ (by
          intro z hz
          simp only [decide_eq_true_eq] at hz
          show decide (z.1 = (nd, nnm)) = false
          rw [hz]
          exact decide_eq_false hne)]
      rfl

/-- Witness for C1's amended theorem: the three failure modes at concrete
states. -/
theorem c1_rename_unwind_amended_witness :
    (f2fs_rename ⟨[((1, [97]), 10), ((2, [98]), 20)], [], [], [], 3, 3, [], [], [], []⟩
        1 [97] 10 2 [98] (some 20) false 0 false ⟨true, true, true, true⟩
      = (⟨[((1, [97]), 10), ((2, [98]), 20)], [], [], [], 3, 3, [], [], [], []⟩,
        .error .enospc)) ∧
    (f2fs_rename ⟨[((1, [97]), 10), ((2, [98]), 20)], [], [], [], 0, 3, [], [], [], []⟩
        1 [97] 10 2 [98] (some 20) false 0 false ⟨true, false, true, true⟩
      = (⟨[((1, [97]), 10), ((2, [98]), 20)], [], [], [], 0, 3, [], [], [], []⟩,
        .ok ())) ∧
    ((f2fs_rename ⟨[((1, [97]), 10)], [], [], [], 0, 3, [], [], [], []⟩
        1 [97] 10 2 [98] none true 99 false ⟨true, true, true, false⟩).2
      = .error .enospc ∧
    countEntry (f2fs_rename ⟨[((1, [97]), 10)], [], [], [], 0, 3, [], [], [], []⟩
        1 [97] 10 2 [98] none true 99 false ⟨true, true, true, false⟩).1 1 [97] = 0 ∧
    countEntry (f2fs_rename ⟨[((1, [97]), 10)], [], [], [], 0, 3, [], [], [], []⟩
        1 [97] 10 2 [98] none true 99 false ⟨true, true, true, false⟩).1 2 [98]
      = countEntry ⟨[((1, [97]), 10)], [], [], [], 0, 3, [], [], [], []⟩ 2 [98] + 1) :=
  ⟨c1_rename_unwind_amended.1 _ 1 10 2 20 10 20 [97] [98] ⟨true, true, true, true⟩
      rfl rfl rfl (by decide),
   c1_rename_unwind_amended.2.1 _ 1 10 2 20 10 20 [97] [98] ⟨true, false, true, true⟩
      rfl rfl rfl (by decide) rfl,
   c1_rename_unwind_amended.2.2 _ 1 10 2 99 10 [97] [98]
      rfl rfl rfl (by decide) (by decide)⟩

/-! ### C2: plain rename replacing an existing target -/

/-- C2 failing input: renaming `"a"` (inode 10) over existing `"b"`
(inode 20) in directory 1 while the retarget step `update_dent_inode` fails.
namei.c:730 does not assign the failure to `err`, so the operation returns
success (0) having released the reserved slot and changed nothing: the
destination entry still points at the replaced inode 20 and its link count is
undiminished, contradicting the claimed success postconditions. -/
theorem c2_rename_replace_divergence :
    (f2fs_rename renameRetargetFailState 1 [97] 10 1 [98] (some 20) false 0 false
        ⟨true, false, true, true⟩
      = (renameRetargetFailState, .ok ())) ∧
    findEntry renameRetargetFailState 1 [98] = some 20 ∧
    getNlink renameRetargetFailState 20 = 1 :=
  ⟨by rfl, rfl, rfl⟩

/-! ### C3: cross-rename link-count pre-check -/

/-- C3 failing input: a cross rename between directories 1 and 2 exchanging
file inode 10 with directory inode 20, where the file side's parent
(directory 1) already has `F2FS_LINK_MAX` links.  The claim requires the
too-many-links pre-check to fail the operation; the code instead checks the
moved file's own link count (namei.c:891, contradicting the comment at
namei.c:881-885), lets the exchange succeed and pushes directory 1's link
count past the ceiling. -/
theorem c3_cross_rename_emlink_divergence :
    getNlink crossRenameCeilingState 1 = F2FS_LINK_MAX ∧
    (f2fs_cross_rename crossRenameCeilingState 1 [97] 10 2 [98] 20
        false true true).2 = .ok () ∧
    getNlink (f2fs_cross_rename crossRenameCeilingState 1 [97] 10 2 [98] 20
        false true true).1 1 = F2FS_LINK_MAX + 1 :=
  ⟨rfl, rfl, rfl⟩

/-! ### C8: symlink length guards -/

/-- C8: a plaintext symlink target longer than the block size is rejected with
name-too-long before any inode is created (the state is returned untouched);
and on an encrypted directory, a target whose length-prefixed encrypted
container would exceed the block size is rejected with name-too-long without
storing any container. -/
theorem c8_symlink_length_guards :
    (∀ (st : FS) (dir ino : Nat) (name symname cipher : List Nat) (bs : Nat)
        (enc : Bool) (sch : SymSched),
      symname.length > bs →
      f2fs_symlink st dir name symname bs ino enc cipher sch
        = (st, .error .enametoolong)) ∧
    (∀ (st : FS) (dir ino : Nat) (name symname cipher : List Nat) (bs : Nat)
        (pok : Bool),
      symname.length ≤ bs →
      encrypted_symlink_data_len cipher.length + 1 > bs →
      (f2fs_symlink st dir name symname bs ino true cipher
          ⟨true, true, true, true, true, pok⟩).2 = .error .enametoolong ∧
      (f2fs_symlink st dir name symname bs ino true cipher
          ⟨true, true, true, true, true, pok⟩).1.stored = st.stored) := by
  refine ⟨?_, ?_⟩
  · intro st dir ino name symname cipher bs enc sch h
    simp [f2fs_symlink, h]
  · intro st dir ino name symname cipher bs pok hlen hp
    have hn : ¬ symname.length > bs := Nat.not_lt.mpr hlen
    simp [f2fs_symlink, hn, hp, addEntry]

/-- Witness for C8: an 8-byte plaintext target against block size 4, and a
2-byte target whose 6-byte encrypted container exceeds block size 4. -/
theorem c8_symlink_length_guards_witness :
    (f2fs_symlink ⟨[], [], [], [], 0, 1, [], [], [], []⟩ 1 [97] [1, 2, 3, 4, 5, 6, 7, 8]
        4 7 false [] ⟨true, true, true, true, true, true⟩
      = (⟨[], [], [], [], 0, 1, [], [], [], []⟩, .error .enametoolong)) ∧
    ((f2fs_symlink ⟨[], [], [], [], 0, 1, [], [], [], []⟩ 1 [97] [1, 2] 4 7 true
        [5, 6, 7] ⟨true, true, true, true, true, true⟩).2 = .error .enametoolong ∧
      (f2fs_symlink ⟨[], [], [], [], 0, 1, [], [], [], []⟩ 1 [97] [1, 2] 4 7 true
        [5, 6, 7] ⟨true, true, true, true, true, true⟩).1.stored = []) :=
  ⟨c8_symlink_length_guards.1 _ 1 7 [97] _ [] 4 false _ (by decide),
   c8_symlink_length_guards.2 _ 1 7 [97] [1, 2] [5, 6, 7] 4 true (by decide) (by decide)⟩

/-! ### C7: encrypted-symlink decode -/

/-- C7 counterexample: a container page whose 16-bit length field decodes to
5000 against block size 4096.  The decode's first observable action is the
allocation-and-copy of 5000 bytes — the validation of the length against the
block size happens only afterwards (and then reports corruption).  So the
stored length is used (that many bytes are copied) before it is validated,
refuting the claim that validation precedes any use of that many bytes. -/
theorem c7_follow_link_counterexample :
    (f2fs_encrypted_follow_link [136, 19] 4096 (fun _ => .ok [47])).1
      = [.copy 5000, .validate] ∧
    (f2fs_encrypted_follow_link [136, 19] 4096 (fun _ => .ok [47])).2
      = .error .eio ∧
    encrypted_symlink_data_len 5000 > 4096 :=
  ⟨rfl, rfl, by decide⟩

/-- C7 amended: the stored length is validated against the block size before
the cipher is invoked — but only after a buffer of that many bytes has been
allocated and filled from the page; an inconsistent length is reported as
structural corruption, and a zero-length container as a broken symlink. -/
theorem c7_follow_link_amended (page : List Nat) (bs : Nat)
    (decrypt : List Nat → Except Err (List Nat)) :
    (sdLen page = 0 →
      (f2fs_encrypted_follow_link page bs decrypt).2 = .error .enoent) ∧
    (sdLen page ≠ 0 → encrypted_symlink_data_len (sdLen page) > bs →
      f2fs_encrypted_follow_link page bs decrypt
        = ([.copy (sdLen page), .validate], .error .eio)) ∧
    (LinkEv.cipher ∈ (f2fs_encrypted_follow_link page bs decrypt).1 →
      encrypted_symlink_data_len (sdLen page) ≤ bs ∧
      (f2fs_encrypted_follow_link page bs decrypt).1
        = [.copy (sdLen page), .validate, .cipher]) := by
  refine ⟨?_, ?_, ?_⟩
  · intro h0
    simp [f2fs_encrypted_follow_link, h0]
  · intro hne hgt
    simp [f2fs_encrypted_follow_link, hne, hgt]
  · intro hmem
    by_cases hb : (((page.drop 2).take (sdLen page)).head?.getD 0 = 0 ∧ sdLen page = 0)
    · simp [f2fs_encrypted_follow_link, hb] at hmem
    · by_cases hv : encrypted_symlink_data_len (sdLen page) > bs
      · simp [f2fs_encrypted_follow_link, hb, hv] at hmem
      · refine ⟨Nat.le_of_not_lt hv, ?_⟩
        rcases hd : decrypt ((page.drop 2).take (sdLen page)) with e | p <;>
          simp [f2fs_encrypted_follow_link, hb, hv, hd]

/-- Witness for C7's amended theorem: a zero-length container, an oversized
container, and a fitting container reaching the cipher. -/
theorem c7_follow_link_amended_witness :
    ((f2fs_encrypted_follow_link [0, 0] 4096 (fun _ => .ok [47])).2
      = .error .enoent) ∧
    (f2fs_encrypted_follow_link [7, 0, 1, 2, 3, 4, 5, 6, 7] 5 (fun _ => .ok [47])
      = ([.copy 7, .validate], .error .eio)) ∧
    (encrypted_symlink_data_len (sdLen [3, 0, 10, 20, 30]) ≤ 4096 ∧
      (f2fs_encrypted_follow_link [3, 0, 10, 20, 30] 4096 (fun _ => .ok [47])).1
        = [.copy (sdLen [3, 0, 10, 20, 30]), .validate, .cipher]) :=
  ⟨(c7_follow_link_amended [0, 0] 4096 (fun _ => .ok [47])).1 rfl,
   (c7_follow_link_amended [7, 0, 1, 2, 3, 4, 5, 6, 7] 5 (fun _ => .ok [47])).2.1
      (by decide) (by decide),
   (c7_follow_link_amended [3, 0, 10, 20, 30] 4096 (fun _ => .ok [47])).2.2
      (by decide)⟩

/-! ### C6: case-insensitive comparison helper lemmas -/

theorem striptail_len_le (name : List Nat) (n : Nat) : striptail_len name n ≤ n := by
  induction n with
  | zero => exact Nat.le_refl 0
  | succ k ih =>
    simp only [striptail_len]
    split
    · exact Nat.le_succ_of_le ih
    · exact Nat.le_refl _

theorem striptail_len_append (xs : List Nat) (x : Nat) (n : Nat) (h : n ≤ xs.length) :
    striptail_len (xs ++ [x]) n = striptail_len xs n := by
  induction n with
  | zero => rfl
  | succ k ih =>
    have hk : k < xs.length := h
    simp only [striptail_len]
    rw [List.getD_append _ _ _ _ hk]
    split
    · exact ih (Nat.le_of_lt hk)
    · rfl

theorem getD_concat_length (xs : List Nat) (x : Nat) :
    (xs ++ [x]).getD xs.length 0 = x := by
  rw [List.getD_append_right _ _ _ _ (Nat.le_refl _)]
  simp

theorem f2fs_striptail_len_eq (l : List Nat) :
    f2fs_striptail_len l = (stripDots l).length := by
  induction l using List.reverseRecOn with
  | nil => rfl
  | append_singleton xs x ih =>
    unfold f2fs_striptail_len at ih ⊢
    have hlen : (xs ++ [x]).length = xs.length + 1 := by simp
    rw [hlen]
    by_cases hx : x = 46
    · subst hx
      simp only [striptail_len]
      rw [getD_concat_length, if_pos rfl,
        striptail_len_append xs 46 xs.length (Nat.le_refl _), ih]
      have hsd : stripDots (xs ++ [46]) = stripDots xs := by
        simp [stripDots]
      rw [hsd]
    · simp only [striptail_len]
      rw [getD_concat_length, if_neg hx]
      have hsd : stripDots (xs ++ [x]) = xs ++ [x] := by
        simp [stripDots, hx]
      rw [hsd, hlen]

theorem stripDots_take (l : List Nat) : l.take (stripDots l).length = stripDots l := by
  have h : l = stripDots l ++ (l.reverse.takeWhile (fun c => c = 46)).reverse := by
    calc l = l.reverse.reverse := (List.reverse_reverse l).symm
    _ = (l.reverse.takeWhile (fun c : Nat => c = 46)
          ++ l.reverse.dropWhile (fun c : Nat => c = 46)).reverse := by
        rw [List.takeWhile_append_dropWhile]
    _ = stripDots l ++ (l.reverse.takeWhile (fun c => c = 46)).reverse := by
        rw [List.reverse_append]; rfl
  nth_rewrite 2 [h]
  exact List.take_left _ _

theorem strncasecmp_zero_iff (n : Nat) : ∀ (s1 s2 : List Nat),
    n ≤ s1.length → n ≤ s2.length →
    (∀ c ∈ s1.take n, c ≠ 0) → (∀ c ∈ s2.take n, c ≠ 0) →
    (strncasecmp s1 s2 n = 0 ↔ (s1.take n).map tolower = (s2.take n).map tolower) := by
  induction n with
  | zero => intro s1 s2 _ _ _ _; simp [strncasecmp]
  | succ k ih =>
    intro s1 s2 h1 h2 z1 z2
    cases s1 with
    | nil => simp at h1
    | cons c1 t1 =>
      cases s2 with
      | nil => simp at h2
      | cons c2 t2 =>
        have hc1 : c1 ≠ 0 := z1 c1 (by simp [List.take_succ_cons])
        have hc2 : c2 ≠ 0 := z2 c2 (by simp [List.take_succ_cons])
        have h1' : k ≤ t1.length := Nat.le_of_succ_le_succ (by simpa using h1)
        have h2' : k ≤ t2.length := Nat.le_of_succ_le_succ (by simpa using h2)
        have z1' : ∀ c ∈ t1.take k, c ≠ 0 := fun c hc =>
          z1 c (by rw [List.take_succ_cons]; exact List.mem_cons_of_mem _ hc)
        have z2' : ∀ c ∈ t2.take k, c ≠ 0 := fun c hc =>
          z2 c (by rw [List.take_succ_cons]; exact List.mem_cons_of_mem _ hc)
        simp only [strncasecmp, List.headD_cons, List.tail_cons]
        rw [if_neg (by push_neg; exact ⟨hc1, hc2⟩)]
        rw [List.take_succ_cons, List.take_succ_cons, List.map_cons, List.map_cons]
        by_cases he : c1 = c2
        · rw [if_pos he, ih t1 t2 h1' h2' z1' z2', he]
          simp
        · rw [if_neg he]
          by_cases hl : tolower c1 = tolower c2
          · rw [if_pos hl, ih t1 t2 h1' h2' z1' z2', hl]
            simp
          · rw [if_neg hl]
            constructor
            · intro h0
              exact absurd (Nat.cast_inj.mp (Int.sub_eq_zero.mp h0)) hl
            · intro h0
              have hh := congrArg List.head? h0
              simp only [List.head?_cons, Option.some.injEq] at hh
              exact (hl hh).elim

/-- C6: the case-insensitive comparison judges two NUL-free names equal
(returns 0) exactly when their lengths after stripping all trailing `'.'`
bytes agree and the case-folded bytes over that stripped length agree;
in particular `"FOO"`, `"foo"` and `"foo."` are mutually equal. -/
theorem c6_d_compare_spec (a b : List Nat) (ha : ∀ c ∈ a, c ≠ 0)
    (hb : ∀ c ∈ b, c ≠ 0) :
    (f2fs_d_compare a b b.length = 0 ↔
      ((stripDots a).length = (stripDots b).length ∧
        (stripDots a).map tolower = (stripDots b).map tolower)) := by
  have key : (f2fs_striptail_len a = striptail_len b b.length ∧
      strncasecmp a b (f2fs_striptail_len a) = 0) ↔
      ((stripDots a).length = (stripDots b).length ∧
        (stripDots a).map tolower = (stripDots b).map tolower) := by
    constructor
    · rintro ⟨hlen, hcmp⟩
      have hlen' : (stripDots a).length = (stripDots b).length := by
        rw [← f2fs_striptail_len_eq a, ← f2fs_striptail_len_eq b]
        exact hlen
      refine ⟨hlen', ?_⟩
      have hla : f2fs_striptail_len a ≤ a.length := striptail_len_le a a.length
      have hlb : f2fs_striptail_len a ≤ b.length := by
        rw [hlen]; exact striptail_len_le b b.length
      have hm := (strncasecmp_zero_iff (f2fs_striptail_len a) a b hla hlb
        (fun c hc => ha c (List.mem_of_mem_take hc))
        (fun c hc => hb c (List.mem_of_mem_take hc))).mp hcmp
      have ta : a.take (f2fs_striptail_len a) = stripDots a := by
        rw [f2fs_striptail_len_eq a]; exact stripDots_take a
      have tb : b.take (f2fs_striptail_len a) = stripDots b := by
        rw [f2fs_striptail_len_eq a, hlen']; exact stripDots_take b
      rw [ta, tb] at hm
      exact hm
    · rintro ⟨hlen, hmap⟩
      have hlen0 : f2fs_striptail_len a = striptail_len b b.length := by
        rw [f2fs_striptail_len_eq a, hlen]
        exact (f2fs_striptail_len_eq b).symm
      refine ⟨hlen0, ?_⟩
      have hla : f2fs_striptail_len a ≤ a.length := striptail_len_le a a.length
      have hlb : f2fs_striptail_len a ≤ b.length := by
        rw [hlen0]; exact striptail_len_le b b.length
      apply (strncasecmp_zero_iff (f2fs_striptail_len a) a b hla hlb
        (fun c hc => ha c (List.mem_of_mem_take hc))
        (fun c hc => hb c (List.mem_of_mem_take hc))).mpr
      have ta : a.take (f2fs_striptail_len a) = stripDots a := by
        rw [f2fs_striptail_len_eq a]; exact stripDots_take a
      have tb : b.take (f2fs_striptail_len a) = stripDots b := by
        rw [f2fs_striptail_len_eq a, hlen]; exact stripDots_take b
      rw [ta, tb]
      exact hmap
  simp only [f2fs_d_compare]
  rw [← key]
  split
  · rename_i hcond
    exact ⟨fun _ => hcond, fun _ => rfl⟩
  · rename_i hcond
    exact ⟨fun h => absurd h one_ne_zero, fun hc => absurd hc hcond⟩

/-- Witness for C6: `"FOO"` and `"foo."` are judged equal. -/
theorem c6_d_compare_spec_witness :
    f2fs_d_compare [70, 79, 79] [102, 111, 111, 46] 4 = 0 :=
  (c6_d_compare_spec [70, 79, 79] [102, 111, 111, 46] (by decide) (by decide)).mpr
    (by decide)

end F2FS
